import Mathlib

/-
Verification of the crules deployment utility.

This file gives a shallow embedding, in Lean, of the parts of the crules
code base that its design document makes claims about:

* `crules/utils.py` (the top-level package): the YAML front-matter reader
  `read_yaml_front_matter`, the missing-field validator
  `validate_file_content`, and the directory walker `list_files`.
* `crules/commands.py` (the top-level package): the error-collecting
  `validate_file_content`, the target-path computation of `deploy_command`,
  and `validate_command`.
* `crules/crules/utils.py` (the inner package): `is_same_file` (both the
  byte-comparing definition at line 637 and the inode-comparing duplicate at
  line 1096 that shadows it), `resolve_conflict`, `list_files` (both the
  raising definition at line 216 and the silent duplicate at line 1005 that
  shadows it), `validate_directory_hierarchy`, `validate_file_format`,
  `validate_file_size`, `validate_file_content`, `validate_file_structure`,
  and the second `read_yaml_front_matter`.
* `crules/crules/commands.py` (the inner package): `init_command`.

Machine integers do not occur; Python strings are modelled as `List Char`
(Python indices are character counts), file systems as finite maps from
normalised path-component lists to file records carrying content, a size and
an inode number, and fallible Python code as `Except`-valued functions whose
error value records the class of the exception that escapes.

External library calls are modelled from their documented behaviour:
`yaml.safe_load` as a mini-parser covering the flat scalar/sequence/mapping
front matter this program handles, `shutil.copy2` as content-plus-metadata
copy, `click.confirm` as a boolean input together with a flag recording that
the user was prompted.
-/

set_option maxRecDepth 100000

/-! ## Character-level string machinery (Python string semantics) -/

/-- The whitespace characters recognised by Python's `str.strip` and the
regex class `\s`, restricted to ASCII (the only characters that occur in the
modelled inputs). -/
def pyIsSpace (c : Char) : Bool :=
  c = ' ' || c = '\t' || c = '\n' || c = '\r' || c = '\x0b' || c = '\x0c'

/-- Python `str.strip()`: remove leading and trailing whitespace. -/
def trimChars (cs : List Char) : List Char :=
  ((cs.dropWhile pyIsSpace).reverse.dropWhile pyIsSpace).reverse

/-- Split a character list at every occurrence of the character `c`
(Python `str.split(c)`); the result is never empty. -/
def splitOnChar (c : Char) : List Char → List (List Char)
  | [] => [[]]
  | x :: rest =>
    let r := splitOnChar c rest
    if x = c then [] :: r
    else
      match r with
      | [] => [[x]]
      | g :: gs => (x :: g) :: gs

/-- Auxiliary scan for `findSub`, carrying the current index. -/
def findSubAux (needle : List Char) : List Char → Nat → Option Nat
  | [], i => if needle = [] then some i else none
  | c :: rest, i =>
    if List.isPrefixOf needle (c :: rest) then some i
    else findSubAux needle rest (i + 1)

/-- Python `str.find`, as an `Option`: index (in characters) of the first
occurrence of `needle` in `hay`. -/
def findSub (needle hay : List Char) : Option Nat :=
  findSubAux needle hay 0

/-- Python membership test `needle in hay` on strings. -/
def containsSub (needle hay : List Char) : Bool :=
  (findSub needle hay).isSome

/-- Python slicing `s[a:b]` (for `a ≤ b`; an empty result when `b ≤ a`,
as in Python). -/
def sliceChars (cs : List Char) (a b : Nat) : List Char :=
  (cs.drop a).take (b - a)

/-- Python `str.startswith`. -/
def startsWithStr (needle : String) (s : String) : Bool :=
  List.isPrefixOf needle.data s.data

/-- Python `str.endswith`. -/
def endsWithStr (needle : String) (s : String) : Bool :=
  List.isSuffixOf needle.data s.data

/-- Replace every CRLF pair by a single LF
(Python `content.replace("\r\n", "\n")`). -/
def stripCR : List Char → List Char
  | [] => []
  | '\r' :: '\n' :: rest => '\n' :: stripCR rest
  | c :: rest => c :: stripCR rest

/-- Index of the last `'.'` in a character list, if any (auxiliary scan). -/
def lastDotIdxAux : List Char → Nat → Option Nat → Option Nat
  | [], _, acc => acc
  | c :: rest, i, acc => lastDotIdxAux rest (i + 1) (if c = '.' then some i else acc)

/-- Index of the last `'.'` in a character list, if any. -/
def lastDotIdx (cs : List Char) : Option Nat :=
  lastDotIdxAux cs 0 none

/-- Python `os.path.splitext` on a bare file name: split off the extension at
the last dot, except that a run of leading dots never starts an extension
(`splitext(".md") = (".md", "")`). -/
def pySplitext (name : String) : String × String :=
  match lastDotIdx name.data with
  | none => (name, "")
  | some i =>
    if (name.data.take i).any (fun c => c ≠ '.') then
      (String.mk (name.data.take i), String.mk (name.data.drop i))
    else (name, "")

/-- `pathlib.Path(name).suffix` of a final path component: the file
extension including the dot, empty for dotless or leading-dot-only names. -/
def pySuffix (name : String) : String :=
  (pySplitext name).2

/-- `pathlib.Path(name).with_suffix(suf)` on a final path component:
replace the extension by `suf`. -/
def pyWithSuffix (name suf : String) : String :=
  (pySplitext name).1 ++ suf

/-! ## The YAML value model

`yaml.safe_load` is an external library call; it is modelled from its
documented behaviour on the flat documents this program handles: scalar
atoms (null, booleans, integers, plain or double-quoted strings), flat block
or flow sequences of atoms, and flat mappings from string keys to atoms or
flow sequences. -/

/-- A YAML scalar. -/
inductive YAtom where
  | anull
  | abool (b : Bool)
  | astr (s : String)
  | aint (n : Nat)
deriving DecidableEq, Repr

/-- A value stored under a key of a YAML mapping: a scalar or a flat
sequence of scalars. -/
inductive YVal where
  | vatom (a : YAtom)
  | vseq (xs : List YAtom)
deriving DecidableEq, Repr

/-- A parsed YAML document: a scalar, a flat sequence, or a flat mapping. -/
inductive Yaml where
  | yatom (a : YAtom)
  | yseq (xs : List YAtom)
  | ymap (kvs : List (String × YVal))
deriving DecidableEq, Repr

/-- View a mapping value as a document value. -/
def YVal.toYaml : YVal → Yaml
  | .vatom a => .yatom a
  | .vseq xs => .yseq xs

/-- Whether a parsed document is a mapping (`isinstance(x, dict)`). -/
def Yaml.isMap : Yaml → Bool
  | .ymap _ => true
  | _ => false

/-- Whether a parsed document is a sequence (`isinstance(x, list)`). -/
def Yaml.isList : Yaml → Bool
  | .yseq _ => true
  | _ => false

/-- Python truthiness of a parsed document (`bool(x)`): null, `False`, the
empty string, zero, the empty sequence and the empty mapping are falsy. -/
def Yaml.pyTruthy : Yaml → Bool
  | .yatom .anull => false
  | .yatom (.abool b) => b
  | .yatom (.astr s) => s ≠ ""
  | .yatom (.aint n) => n ≠ 0
  | .yseq xs => xs ≠ []
  | .ymap kvs => kvs ≠ []

/-- The exception classes that escape the modelled Python code. -/
inductive PyErr where
  | typeError
  | keyError
  | attributeError
  | valueError
  | osError
  | fileOperationError
  | conflictError
  | validationError
  | yamlError
deriving DecidableEq, Repr

/-- Decidable equality of `Except` values (needed to evaluate the models on
concrete inputs). -/
instance instDecEqExcept {ε α : Type} [DecidableEq ε] [DecidableEq α] :
    DecidableEq (Except ε α) := fun a b =>
  match a, b with
  | .error e, .error f =>
    if h : e = f then isTrue (by rw [h])
    else isFalse (fun hc => h (by injection hc))
  | .ok x, .ok y =>
    if h : x = y then isTrue (by rw [h])
    else isFalse (fun hc => h (by injection hc))
  | .error _, .ok _ => isFalse (fun hc => Except.noConfusion hc)
  | .ok _, .error _ => isFalse (fun hc => Except.noConfusion hc)

/-- Python `key in x` for a string `key` and a parsed YAML document `x`:
key membership on mappings, element membership on sequences, substring test
on strings, and a `TypeError` on the remaining scalars. -/
def yamlContains (key : String) : Yaml → Except PyErr Bool
  | .ymap kvs => .ok (kvs.any (fun kv => kv.1 = key))
  | .yseq xs => .ok (xs.contains (.astr key))
  | .yatom (.astr s) => .ok (containsSub key.data s.data)
  | .yatom _ => .error .typeError

/-- Python `x[key]` for a string `key`: mapping lookup (`KeyError` when the
key is absent), `TypeError` on every non-mapping. -/
def yamlGetItem (v : Yaml) (key : String) : Except PyErr Yaml :=
  match v with
  | .ymap kvs =>
    match kvs.find? (fun kv => kv.1 = key) with
    | some kv => .ok kv.2.toYaml
    | none => .error .keyError
  | _ => .error .typeError

/-- Python `len(x)`: length of strings, sequences and mappings, `TypeError`
on the remaining scalars. -/
def pyLen : Yaml → Except PyErr Nat
  | .yatom (.astr s) => .ok s.length
  | .yseq xs => .ok xs.length
  | .ymap kvs => .ok kvs.length
  | .yatom _ => .error .typeError

/-- Pure lookup of a mapping key (used to state theorems; `none` for
non-mappings). -/
def Yaml.lookupKey (v : Yaml) (key : String) : Option YVal :=
  match v with
  | .ymap kvs => (kvs.find? (fun kv => kv.1 = key)).map (fun kv => kv.2)
  | _ => none

/-! ## The model of `yaml.safe_load` -/

/-- Numeric value of a digit string. -/
def natFromDigits (cs : List Char) : Nat :=
  cs.foldl (fun n c => n * 10 + (c.toNat - 48)) 0

/-- Parse one scalar token (trimmed): `true`, `false`, `null`/`~`, a
decimal integer, a double-quoted string, or a plain string. -/
def parseAtomChars (t : List Char) : YAtom :=
  if t = "true".data then .abool true
  else if t = "false".data then .abool false
  else if t = "null".data then .anull
  else if t = "~".data then .anull
  else if t ≠ [] ∧ t.all Char.isDigit then .aint (natFromDigits t)
  else if 2 ≤ t.length ∧ t.head? = some '"' ∧ t.getLast? = some '"' then
    .astr (String.mk ((t.drop 1).dropLast))
  else .astr (String.mk t)

/-- Parse a value position (trimmed): a flow sequence `[x, y]` or a scalar. -/
def parseValueChars (t : List Char) : YVal :=
  if t.head? = some '[' ∧ t.getLast? = some ']' then
    let inner := trimChars ((t.drop 1).dropLast)
    if inner = [] then .vseq []
    else .vseq ((splitOnChar ',' inner).map (fun e => parseAtomChars (trimChars e)))
  else .vatom (parseAtomChars t)

/-- Position of the key/value separator in a mapping line: the first `':'`
that ends the line or is followed by a space. -/
def keySepIdx : List Char → Option Nat
  | [] => none
  | [':'] => some 0
  | ':' :: c :: rest =>
    if c = ' ' then some 0
    else (keySepIdx (c :: rest)).map (fun i => i + 1)
  | _ :: rest => (keySepIdx rest).map (fun i => i + 1)

/-- Parse one `key: value` line (assuming `keySepIdx` found a separator). -/
def parseMapLine (l : List Char) : String × YVal :=
  match keySepIdx l with
  | some i =>
    let v := trimChars (l.drop (i + 1))
    (String.mk (trimChars (l.take i)),
      if v = [] then .vatom .anull else parseValueChars v)
  | none => ("", .vatom .anull)

/-- Model of `yaml.safe_load` on a character list: an empty document is
null; a document whose lines all start with `"- "` is a sequence; a document
whose lines all carry a key separator is a mapping; a single remaining line
is a scalar or flow sequence; anything else is a `YAMLError`. -/
def safeLoadChars (cs : List Char) : Except Unit Yaml :=
  let t := trimChars cs
  if t = [] then .ok (.yatom .anull)
  else
    let lines := ((splitOnChar '\n' t).map trimChars).filter (fun l => l ≠ [])
    if lines.all (fun l => List.isPrefixOf "- ".data l) then
      .ok (.yseq (lines.map (fun l => parseAtomChars (trimChars (l.drop 2)))))
    else if lines.all (fun l => (keySepIdx l).isSome) then
      .ok (.ymap (lines.map parseMapLine))
    else
      match lines with
      | [l] =>
        .ok (match parseValueChars l with
          | .vatom a => .yatom a
          | .vseq xs => .yseq xs)
      | _ => .error ()

/-- Model of `yaml.safe_load` on a Python string. -/
def safeLoad (s : String) : Except Unit Yaml :=
  safeLoadChars s.data

/-! ## The file-system model

Paths are normalised lists of components (`os.path.join` drops `"."`
components on normalisation); a file carries its text content, its
`st_size` and its inode number (`st_ino`, which `Path.samefile` compares).
-/

/-- A file-system path, as a list of name components. -/
abbrev FPath := List String

/-- A regular file: text content, `st_size`, and inode number. -/
structure FileData where
  content : String
  size : Nat
  ino : Nat
deriving DecidableEq, Repr

/-- A file system: the set of directories and the set of regular files. -/
structure FS where
  dirs : List FPath
  files : List (FPath × FileData)
deriving DecidableEq, Repr

/-- Look up a regular file. -/
def FS.lookupFile (fs : FS) (p : FPath) : Option FileData :=
  (fs.files.find? (fun e => e.1 == p)).map (fun e => e.2)

/-- Whether `p` is a regular file. -/
def FS.isFile (fs : FS) (p : FPath) : Bool :=
  (fs.lookupFile p).isSome

/-- Whether `p` is a directory (`Path.is_dir`). -/
def FS.isDir (fs : FS) (p : FPath) : Bool :=
  fs.dirs.contains p

/-- Whether `p` exists (`os.path.exists`): as a directory or as a file. -/
def FS.pathExists (fs : FS) (p : FPath) : Bool :=
  fs.isDir p || fs.isFile p

/-- Create or overwrite the regular file at `p`. -/
def FS.setFile (fs : FS) (p : FPath) (d : FileData) : FS :=
  if (fs.lookupFile p).isSome then
    { fs with files := fs.files.map (fun e => if e.1 == p then (p, d) else e) }
  else
    { fs with files := fs.files ++ [(p, d)] }

/-- Model of `shutil.copy2 src dst`: copy content and size metadata; an
overwritten destination keeps its inode, a newly created one receives the
fresh inode number `freshIno`. A missing source is never reached by the
modelled callers (they check existence first). -/
def copy2 (fs : FS) (src dst : FPath) (freshIno : Nat) : FS :=
  match fs.lookupFile src with
  | none => fs
  | some f =>
    match fs.lookupFile dst with
    | some g => fs.setFile dst { content := f.content, size := f.size, ino := g.ino }
    | none => fs.setFile dst { content := f.content, size := f.size, ino := freshIno }

/-- All non-empty prefixes of a path. -/
def prefixesOf (p : FPath) : List FPath :=
  (List.range p.length).map (fun i => p.take (i + 1))

/-- Model of `mkdir(parents=True, exist_ok=True)`: add the directory and all
its ancestors. -/
def FS.addDir (fs : FS) (p : FPath) : FS :=
  { fs with dirs := fs.dirs ++ (prefixesOf p).filter (fun q => ! fs.dirs.contains q) }

/-- Normalising join of path fragments (drops `"."` components, as the file
system does when resolving `os.path.join(a, ".", b)`). -/
def pathJoin (parts : List FPath) : FPath :=
  parts.flatten.filter (fun c => c != ".")

/-- Model of `os.path.relpath(child, base)` for `child` below `base`. -/
def pyRelpath (child base : FPath) : FPath :=
  if child = base then ["."] else child.drop base.length

/-- Final name component of a path. -/
def lastName (p : FPath) : String :=
  p.getLastD ""

/-- Whether a name is hidden (glob wildcards do not match a leading dot). -/
def hiddenName (name : String) : Bool :=
  name.data.head? = some '.'

/-- Whether a file name matches the glob pattern `*<sufPat>` (the only
pattern shape the modelled code passes: `*`, `*.md`, `*.mdc`). -/
def globNameMatch (sufPat : String) (name : String) : Bool :=
  ! hiddenName name && endsWithStr sufPat name

/-- Model of `dir.glob("*" + sufPat)` restricted to regular files: the files
directly inside `dir` whose name matches. -/
def globDir (fs : FS) (dir : FPath) (sufPat : String) : List (FPath × FileData) :=
  fs.files.filter (fun e => e.1.dropLast == dir && globNameMatch sufPat (lastName e.1))

/-- Model of `dir.glob("**/*" + sufPat)` / `dir.rglob("*" + sufPat)`
restricted to regular files: the files anywhere below `dir` whose name
matches. -/
def rglobDir (fs : FS) (dir : FPath) (sufPat : String) : List (FPath × FileData) :=
  fs.files.filter (fun e =>
    List.isPrefixOf dir e.1 && decide (dir.length < e.1.length)
      && globNameMatch sufPat (lastName e.1))

/-- Model of the files yielded by `os.walk(root)`: every regular file below
`root`, in the enumeration order of the file table. -/
def walkFiles (fs : FS) (root : FPath) : List (FPath × FileData) :=
  fs.files.filter (fun e => List.isPrefixOf root e.1 && decide (root.length < e.1.length))

/-- The directory entries (files and subdirectories) matching a
non-recursive `dir.glob("*" + sufPat)`, including directories. -/
def globDirAll (fs : FS) (dir : FPath) (sufPat : String) : List FPath :=
  (globDir fs dir sufPat).map (fun e => e.1)
    ++ fs.dirs.filter (fun d => d.dropLast == dir && globNameMatch sufPat (lastName d))

/-- The directory entries (files and subdirectories) matching a recursive
`dir.glob("**/*" + sufPat)`, including directories. -/
def rglobDirAll (fs : FS) (dir : FPath) (sufPat : String) : List FPath :=
  (rglobDir fs dir sufPat).map (fun e => e.1)
    ++ fs.dirs.filter (fun d =>
        List.isPrefixOf dir d && decide (dir.length < d.length)
          && globNameMatch sufPat (lastName d))

/-! ## The top-level package `crules/utils.py` -/

/-- Python `[field for field in required if field not in fm]`, where each
membership test follows Python `in` semantics and may raise. -/
def missingViaMembership (required : List String) (fm : Yaml) :
    Except PyErr (List String) :=
  match required with
  | [] => .ok []
  | f :: rest =>
    match yamlContains f fm with
    | .error e => .error e
    | .ok b =>
      match missingViaMembership rest fm with
      | .error e => .error e
      | .ok tail => .ok (if b then tail else f :: tail)

namespace CrulesUtils

/-- Model of `crules/utils.py: read_yaml_front_matter` (lines 17-55): the
input must start with the line `---`; the block runs to the first
`"\n---\n"`; a missing opening or closing marker, an empty or
whitespace-only block, and a YAML error all yield `None`; otherwise the
parsed value is returned with no mapping check. -/
def read_yaml_front_matter (content : String) : Option Yaml :=
  if ! startsWithStr "---\n" content then none
  else
    match findSub "\n---\n".data content.data with
    | none => none
    | some endIndex =>
      let yamlContent := trimChars (sliceChars content.data 4 endIndex)
      if yamlContent = [] then none
      else
        match safeLoadChars yamlContent with
        | .error _ => none
        | .ok v => some v

/-- Model of `crules/utils.py: validate_file_content` (lines 57-87) applied
to a file with the given text content: the list of required fields that are
not `in` the parsed front matter; the whole of `required` when there is no
parsable, truthy front matter or when a membership test raises (the
`except` at line 86 returns `required_fields or []`). -/
def validate_file_content (content : String) (required : List String) :
    List String :=
  if ! startsWithStr "---\n" content then required
  else
    match read_yaml_front_matter content with
    | none => required
    | some fm =>
      if ! fm.pyTruthy then required
      else if required = [] then []
      else
        match missingViaMembership required fm with
        | .ok missing => missing
        | .error _ => required

/-- Model of `crules/utils.py: list_files` (lines 158-183): an empty list
when the root does not exist or is not a directory; otherwise a glob with
the given pattern (modelled over the `*<suffix>` pattern family the callers
use), recursive when requested. -/
def list_files (fs : FS) (directory : FPath) (pattern : Option String)
    (recursive : Bool) : List FPath :=
  if ! fs.isDir directory then []
  else
    match pattern with
    | some pat =>
      if recursive then (rglobDir fs directory pat).map (fun e => e.1)
      else (globDir fs directory pat).map (fun e => e.1)
    | none =>
      if recursive then rglobDirAll fs directory ""
      else globDirAll fs directory ""

end CrulesUtils

/-- Specification-side definition, following the spec's words for the
missing-field computation (for comparison with
`CrulesUtils.validate_file_content`): the required field names that are not
present as keys of the parsed front matter; a non-mapping front matter has
no keys. -/
def specMissingRequiredFields (fm : Yaml) (required : List String) :
    List String :=
  required.filter (fun f => (fm.lookupKey f).isNone)

/-! ## The inner package `crules/crules/utils.py` -/

/-- Python `"\n".join(lines)`. -/
def joinLines (ls : List (List Char)) : List Char :=
  List.intercalate "\n".data ls

/-- Whether a character list starts with an all-whitespace run containing a
`'\n'` — the condition for the regex fragment `\s*\n` to match a prefix. -/
def hasWsNewline : List Char → Bool
  | [] => false
  | c :: rest =>
    if c = '\n' then true
    else if pyIsSpace c then hasWsNewline rest
    else false

/-- The candidate split points for a greedy `\s*\n` at the start of `rest`:
every index `j` with `rest[0..j]` whitespace and `rest[j] = '\n'`, largest
first (the backtracking order of a greedy `\s*`). -/
def wsNewlineSplits (rest : List Char) : List Nat :=
  ((List.range (rest.takeWhile pyIsSpace).length).filter
    (fun j => rest.get? j = some '\n')).reverse

/-- The lazy group scan of `(.*?)\n---\s*\n` (DOTALL): the shortest prefix
of `tail` followed by `"\n---"` and then a `\s*\n` match. -/
def lazyGroupScan : List Char → Option (List Char)
  | [] => none
  | c :: rest =>
    if c = '\n' ∧ List.isPrefixOf "---".data rest ∧ hasWsNewline (rest.drop 3) then
      some []
    else (lazyGroupScan rest).map (fun g => c :: g)

/-- Model of `re.search(r"^---\s*\n(.*?)\n---\s*\n", content, re.DOTALL)`:
the captured group, if the pattern matches (the pattern is anchored at the
start of the input). -/
def innerExtract (content : String) : Option (List Char) :=
  let cs := content.data
  if ! List.isPrefixOf "---".data cs then none
  else
    let rest := cs.drop 3
    (wsNewlineSplits rest).findSome? (fun j => lazyGroupScan (rest.drop (j + 1)))

/-- The failure cases of the inner front-matter reader (all surfaced to the
caller as a `ValidationError`). -/
inductive FMErr where
  | markersNotFound
  | yamlParseError
  | notAMapping
deriving DecidableEq, Repr

namespace InnerUtils

/-- Model of `crules/crules/utils.py: read_yaml_front_matter`
(lines 148-188) applied to a content string (which is not also an existing
file path): extract the block with the anchored regex, parse it, and reject
any parsed value that is not a mapping; every failure raises
`ValidationError`, tagged here with its cause. -/
def read_yaml_front_matter (content : String) : Except FMErr Yaml :=
  match innerExtract content with
  | none => .error .markersNotFound
  | some g =>
    match safeLoadChars g with
    | .error _ => .error .yamlParseError
    | .ok v => if v.isMap then .ok v else .error .notAMapping

/-- Model of `crules/crules/utils.py: validate_yaml_front_matter`
(lines 203-213): `description` and `globs` must both be `in` the front
matter (each membership test follows Python `in` semantics). -/
def validate_yaml_front_matter (fm : Yaml) : Except PyErr Bool :=
  match yamlContains "description" fm with
  | .error e => .error e
  | .ok d =>
    if ! d then .ok false
    else
      match yamlContains "globs" fm with
      | .error e => .error e
      | .ok g => .ok g

/-- Model of the first `crules/crules/utils.py: is_same_file`
(lines 637-674): open both files, compare sizes, then compare contents
chunk by chunk (equivalent to byte equality); a missing file raises
`FileOperationError`. This definition is shadowed at run time by the second
definition below and is therefore dead code. -/
def is_same_file_v1 (fs : FS) (file1 file2 : FPath) : Except PyErr Bool :=
  match fs.lookupFile file1, fs.lookupFile file2 with
  | some a, some b =>
    if a.size ≠ b.size then .ok false else .ok (a.content = b.content)
  | _, _ => .error .fileOperationError

/-- Model of the second `crules/crules/utils.py: is_same_file`
(lines 1096-1112), the definition in force at run time: both paths exist
and `Path.samefile` holds, i.e. the two paths have the same inode. Two
distinct files with equal contents compare unequal here. -/
def is_same_file (fs : FS) (file1 file2 : FPath) : Bool :=
  match fs.lookupFile file1, fs.lookupFile file2 with
  | some a, some b => a.ino = b.ino
  | _, _ => false

/-- Model of `datetime.datetime.now().strftime("%Y%m%d_%H%M%S")` under the
module's import `from datetime import datetime` (line 14): the name
`datetime` is bound to the class, the class has no attribute `datetime`,
so the expression raises `AttributeError` before any timestamp is
produced. -/
def datetimeTimestamp : Except PyErr String :=
  .error .attributeError

/-- The backup path `f"{target}.{timestamp}.bak"`. -/
def backupPathFor (target : FPath) (timestamp : String) : FPath :=
  target.dropLast ++ [lastName target ++ "." ++ timestamp ++ ".bak"]

/-- Result of one `resolve_conflict` call: the Python return value or the
escaped exception, the resulting file system, whether `click.confirm`
prompted the user, and the backup files created. -/
structure RCResult where
  outcome : Except PyErr Bool
  fs : FS
  prompted : Bool
  backupsMade : List FPath
deriving DecidableEq, Repr

/-- The backup-then-overwrite tail of `resolve_conflict` (lines 439-453):
compute the timestamp (which raises, see `datetimeTimestamp`), copy the
target to the backup path, then copy the source over the target. -/
def backupAndOverwrite (fs : FS) (source target : FPath) (freshIno : Nat) :
    Except PyErr Unit × FS × List FPath :=
  match datetimeTimestamp with
  | .error e => (.error e, fs, [])
  | .ok ts =>
    let bak := backupPathFor target ts
    let fs1 := copy2 fs target bak freshIno
    (.ok (), copy2 fs1 source target (freshIno + 1), [bak])

/-- Model of `crules/crules/utils.py: resolve_conflict` (lines 398-458).
`confirmAnswer` is the user's reply should `click.confirm` be reached;
`freshIno` is the inode supply for newly created files. Every exception
reaching the outer handler at line 455 is re-raised as `ConflictError`. -/
def resolve_conflict (fs : FS) (source target : FPath)
    (force confirmAnswer : Bool) (freshIno : Nat) : RCResult :=
  if ! fs.pathExists source then
    { outcome := .error .conflictError, fs := fs, prompted := false, backupsMade := [] }
  else if ! fs.pathExists target then
    { outcome := .ok true, fs := copy2 fs source target freshIno,
      prompted := false, backupsMade := [] }
  else if ! force ∧ is_same_file fs source target then
    { outcome := .ok true, fs := fs, prompted := false, backupsMade := [] }
  else if ! force ∧ ! confirmAnswer then
    { outcome := .ok false, fs := fs, prompted := true, backupsMade := [] }
  else
    match backupAndOverwrite fs source target freshIno with
    | (.error _, fs1, baks) =>
      { outcome := .error .conflictError, fs := fs1, prompted := ! force,
        backupsMade := baks }
    | (.ok _, fs1, baks) =>
      { outcome := .ok true, fs := fs1, prompted := ! force, backupsMade := baks }

/-- Model of the first `crules/crules/utils.py: list_files`
(lines 216-249): raises `FileOperationError` on a missing or non-directory
root, otherwise returns every file below the root (`os.walk`). This
definition is shadowed at run time by the second definition below and is
therefore dead code. -/
def list_files_v1 (fs : FS) (directory : FPath) : Except PyErr (List FPath) :=
  if ! fs.pathExists directory then .error .fileOperationError
  else if ! fs.isDir directory then .error .fileOperationError
  else .ok ((walkFiles fs directory).map (fun e => e.1))

/-- Model of the second `crules/crules/utils.py: list_files`
(lines 1005-1026), the definition in force at run time: an empty list when
the root does not exist; otherwise a recursive glob with the given pattern
(modelled over the `*<suffix>` family), or every file below the root when
no pattern is given. -/
def list_files (fs : FS) (directory : FPath) (pattern : Option String) :
    List FPath :=
  if ! fs.pathExists directory then []
  else
    match pattern with
    | some pat => (rglobDir fs directory pat).map (fun e => e.1)
    | none => (walkFiles fs directory).map (fun e => e.1)

/-- Model of `crules/crules/utils.py: validate_directory_hierarchy`
(lines 583-609): the project directory must exist and contain `rules/` and
`notes/`; returns whether there were no errors. -/
def validate_directory_hierarchy (fs : FS) (directory : FPath) : Bool :=
  if ! fs.pathExists directory then false
  else
    fs.pathExists (directory ++ ["rules"]) && fs.pathExists (directory ++ ["notes"])

/-- Model of `crules/crules/utils.py: validate_file_format`
(lines 252-265): the `os.path.splitext` extension must be in the allowed
list. -/
def validate_file_format (p : FPath) (allowedExtensions : List String) : Bool :=
  allowedExtensions.contains (pySuffix (lastName p))

/-- Model of `crules/crules/utils.py: validate_file_size` (lines 268-278):
`os.path.getsize(file_path) <= max_size`; `os.path.getsize` raises
`OSError` on a missing file. -/
def validate_file_size (fs : FS) (p : FPath) (maxSize : Nat) :
    Except PyErr Bool :=
  match fs.lookupFile p with
  | none => .error .osError
  | some f => .ok (f.size ≤ maxSize)

/-- Python `all(field in front_matter for field in required_fields)` with
Python `in` semantics (short-circuiting, may raise). -/
def allFieldsIn (required : List String) (fm : Yaml) : Except PyErr Bool :=
  match required with
  | [] => .ok true
  | f :: rest =>
    match yamlContains f fm with
    | .error e => .error e
    | .ok b => if ! b then .ok false else allFieldsIn rest fm

/-- Model of `crules/crules/utils.py: validate_file_content`
(lines 281-321) applied to the file at `p`: returns a boolean; empty files,
unreadable files, parser failures and raised membership tests all yield
`False`. An empty `required` list behaves like the `None` default (both are
falsy), falling back to `validate_yaml_front_matter`. -/
def validate_file_content (fs : FS) (p : FPath) (required : List String) :
    Bool :=
  match fs.lookupFile p with
  | none => false
  | some f =>
    if f.content = "" then false
    else
      match read_yaml_front_matter f.content with
      | .error _ => false
      | .ok fm =>
        if required ≠ [] then
          match allFieldsIn required fm with
          | .ok b => b
          | .error _ => false
        else
          match validate_yaml_front_matter fm with
          | .ok b => b
          | .error _ => false

/-- Model of `crules/crules/utils.py: validate_file_structure`
(lines 323-395) applied to the file at `p`: returns a boolean; the file
must be non-empty, open with a `---` line, have a closing line equal to
`---`, carry a mapping front matter containing `description` and `globs`,
and have a non-empty body after the closing marker. -/
def validate_file_structure (fs : FS) (p : FPath) : Bool :=
  match fs.lookupFile p with
  | none => false
  | some f =>
    if f.content = "" then false
    else
      let lines := splitOnChar '\n' (stripCR f.content.data)
      match lines with
      | [] => false
      | l0 :: rest =>
        if ! List.isPrefixOf "---".data l0 then false
        else
          match rest.findIdx? (fun l => l = "---".data) with
          | none => false
          | some i =>
            let yamlContent := joinLines (rest.take i)
            match safeLoadChars yamlContent with
            | .error _ => false
            | .ok fm =>
              if ! fm.isMap then false
              else
                match validate_yaml_front_matter fm with
                | .error _ => false
                | .ok ok_ =>
                  if ! ok_ then false
                  else
                    let body := rest.drop (i + 1)
                    if body = [] then false
                    else if trimChars (joinLines body) = [] then false
                    else true

end InnerUtils

/-! ## The inner package `crules/crules/commands.py` -/

namespace InnerCmds

/-- The deployment target of a rule file computed by `init_command`
(`crules/crules/commands.py` lines 58-61): `.cursor/rules/<rel>/<stem>.mdc`
(the path is normalised, dropping the `"."` relative component). -/
def initRuleTarget (relDir : FPath) (fname : String) : FPath :=
  pathJoin [[".cursor", "rules"], relDir, [(pySplitext fname).1 ++ ".mdc"]]

/-- The deployment target of a note file computed by `init_command`
(`crules/crules/commands.py` lines 118-119): `.notes/<rel>/<name>` with the
suffix unchanged. -/
def initNoteTarget (relDir : FPath) (fname : String) : FPath :=
  pathJoin [[".notes"], relDir, [fname]]

/-- One iteration of the per-file loop of `init_command` (the rules block,
lines 54-97, and the notes block, lines 114-155, run the same checks and
differ only in the target path, supplied as `targetOf`). The folded state
is (the block's `success` flag, the file system, the inode supply).

The boolean-valued `utils.validate_file_content` / `validate_file_structure`
results are treated by `init_command` as collections of messages: a `True`
result reaches `', '.join(missing_fields)` resp. `for error in
structure_errors`, both of which raise `TypeError` on a boolean; a `False`
result makes `if missing_fields:` / `if structure_errors:` skip the error
branch, so the file is treated as valid. -/
def initProcessFile (srcRoot : FPath) (targetOf : FPath → String → FPath)
    (force confirmAnswer : Bool) (st : Bool × FS × Nat)
    (e : FPath × FileData) : Except PyErr (Bool × FS × Nat) :=
  let (succ, fs, ino) := st
  let fname := lastName e.1
  if ! endsWithStr ".md" fname then .ok st
  else
    let relDir := pyRelpath e.1.dropLast srcRoot
    let target := targetOf relDir fname
    if ! InnerUtils.validate_file_format e.1 [".md"] then .ok (false, fs, ino)
    else do
      let okSize ← InnerUtils.validate_file_size fs e.1 (1024 * 1024)
      if ! okSize then .ok (false, fs, ino)
      else
        let missingFields := InnerUtils.validate_file_content fs e.1 ["description"]
        if missingFields then .error .typeError
        else
          let structureErrors := InnerUtils.validate_file_structure fs e.1
          if structureErrors then .error .typeError
          else
            let r := InnerUtils.resolve_conflict fs e.1 target force confirmAnswer ino
            match r.outcome with
            | .ok true => .ok (succ, r.fs, ino + 1)
            | .ok false => .ok (false, r.fs, ino)
            | .error err => .error err

/-- The rules block of `init_command` (lines 47-104): fold the per-file
processing over every file below `template/rules`, returning the block's
local `success` flag with the updated file system and inode supply. -/
def initRulesBlock (fs : FS) (templatePath : FPath)
    (force confirmAnswer : Bool) (ino : Nat) :
    Except PyErr (Bool × FS × Nat) :=
  (walkFiles fs (templatePath ++ ["rules"])).foldlM
    (initProcessFile (templatePath ++ ["rules"]) initRuleTarget force confirmAnswer)
    (true, fs, ino)

/-- The notes block of `init_command` (lines 107-162). -/
def initNotesBlock (fs : FS) (templatePath : FPath)
    (force confirmAnswer : Bool) (ino : Nat) :
    Except PyErr (Bool × FS × Nat) :=
  (walkFiles fs (templatePath ++ ["notes"])).foldlM
    (initProcessFile (templatePath ++ ["notes"]) initNoteTarget force confirmAnswer)
    (true, fs, ino)

/-- Model of `crules/crules/commands.py: init_command` (lines 12-164),
called without a template argument (the template path is `template`).
After the structure check, the rules and the notes block each compute a
local `success` flag that is only logged; the function returns `True`
whenever it reaches its last line, regardless of per-file failures. -/
def init_command (fs : FS) (force confirmAnswer : Bool) (ino : Nat) :
    Except PyErr (Bool × FS) :=
  if ! fs.pathExists ["template"] then .ok (false, fs)
  else if ! InnerUtils.validate_directory_hierarchy fs ["template"] then
    .ok (false, fs)
  else do
    let st1 ←
      if fs.pathExists ["template", "rules"] then do
        let st ← initRulesBlock fs ["template"] force confirmAnswer ino
        pure (st.2.1, st.2.2)
      else pure (fs, ino)
    let st2 ←
      if st1.1.pathExists ["template", "notes"] then do
        let st ← initNotesBlock st1.1 ["template"] force confirmAnswer st1.2
        pure (st.2.1, st.2.2)
      else pure st1
    .ok (true, st2.1)

end InnerCmds

/-! ## The top-level package `crules/commands.py` -/

namespace CrulesCmds

/-- The error messages `crules/commands.py: validate_file_content` can
append, as tags (the source appends Japanese message strings; one
constructor per distinct `errors.append` site). -/
inductive VErr where
  | nameHasSpace
  | nameHasSpecialChar
  | noFrontMatter
  | missingRequiredFields (fields : List String)
  | descriptionTooLong
  | globsNotAList
  | globsEmptyList
  | genericException
deriving DecidableEq, Repr

/-- The `description` length check of `validate_file_content`
(lines 424-425): evaluated only when the field is present; `len` of an
unsized value raises. -/
def descCheck (fm : Yaml) : Except PyErr (List VErr) :=
  match yamlContains "description" fm with
  | .error e => .error e
  | .ok c =>
    if ! c then .ok []
    else
      match yamlGetItem fm "description" with
      | .error e => .error e
      | .ok v =>
        match pyLen v with
        | .error e => .error e
        | .ok n => .ok (if 100 < n then [.descriptionTooLong] else [])

/-- The `globs` checks of `validate_file_content` (lines 427-432):
evaluated only when the field is present; the value must be a list and the
list must be non-empty (truthy). -/
def globsCheck (fm : Yaml) : Except PyErr (List VErr) :=
  match yamlContains "globs" fm with
  | .error e => .error e
  | .ok c =>
    if ! c then .ok []
    else
      match yamlGetItem fm "globs" with
      | .error e => .error e
      | .ok v =>
        if ! v.isList then .ok [.globsNotAList]
        else .ok (if ! v.pyTruthy then [.globsEmptyList] else [])

/-- The front-matter checks of `validate_file_content` run for a `.mdc`
file (lines 413-432), in source order; when a check raises, the errors
appended so far are kept and the generic `except`-clause message
(line 435) is appended. -/
def mdcChecks (fm : Yaml) (required : List String) : List VErr :=
  match missingViaMembership required fm with
  | .error _ => [.genericException]
  | .ok missing =>
    let e1 := if missing ≠ [] then [VErr.missingRequiredFields missing] else []
    match descCheck fm with
    | .error _ => e1 ++ [.genericException]
    | .ok e2 =>
      match globsCheck fm with
      | .error _ => e1 ++ e2 ++ [.genericException]
      | .ok e3 => e1 ++ e2 ++ e3

/-- The file-name checks of `validate_file_content` (lines 398-401): a
space or a special character in the name each append an error. -/
def fileNameErrs (fname : String) : List VErr :=
  (if ' ' ∈ fname.data then [VErr.nameHasSpace] else [])
    ++ (if "@#$%^&*".data.any (fun c => fname.data.contains c) then
          [VErr.nameHasSpecialChar]
        else [])

/-- Model of `crules/commands.py: validate_file_content` (lines 384-437),
main body: file-name checks always run; the front-matter checks only run
for `.mdc` files; `none` for `required` selects the default `description`,
`globs`, `alwaysApply` (lines 414-415). -/
def validate_file_content (fname content : String)
    (required : Option (List String)) : List VErr :=
  let nameErrs := fileNameErrs fname
  if pySuffix fname = ".mdc" then
    match CrulesUtils.read_yaml_front_matter content with
    | none => nameErrs ++ [.noFrontMatter]
    | some fm =>
      if ! fm.pyTruthy then nameErrs ++ [.noFrontMatter]
      else
        nameErrs ++ mdcChecks fm (required.getD ["description", "globs", "alwaysApply"])
  else nameErrs

/-- The target path for a rule file at relative path `rel` below the
template's `rules/` subtree, deployed by `deploy_command` into `targetDir`
(lines 116-118): `.cursor/rules/<rel>` with the `.md` suffix rewritten to
`.mdc` by `Path.with_suffix`. -/
def deployRuleTarget (targetDir rel : FPath) : FPath :=
  targetDir ++ [".cursor", "rules"] ++ rel.dropLast
    ++ [pyWithSuffix (lastName rel) ".mdc"]

/-- The target path for a note file at relative path `rel` below the
template's `notes/` subtree, deployed by `deploy_command` into `targetDir`
(lines 127-129): `notes/<rel>` with the suffix unchanged. -/
def deployNoteTarget (targetDir rel : FPath) : FPath :=
  targetDir ++ ["notes"] ++ rel

/-- Model of `crules/commands.py: deploy_command` (lines 83-139): ensure
the `.cursor/rules` and `notes` target directories, copy every `*.md` file
below `template_dir/rules` to its rule target and every `*.md` file below
`template_dir/notes` to its note target, skipping existing targets unless
`force`; returns `True` unless an exception occurred (here: a missing
template directory). -/
def deploy_command (fs : FS) (templateDir targetDir : FPath) (force : Bool)
    (ino : Nat) : Bool × FS :=
  if ! fs.pathExists templateDir then (false, fs)
  else
    let fs0 := (fs.addDir (targetDir ++ [".cursor", "rules"])).addDir
      (targetDir ++ ["notes"])
    let st1 :=
      if fs0.pathExists (templateDir ++ ["rules"]) then
        (rglobDir fs0 (templateDir ++ ["rules"]) ".md").foldl
          (fun (st : FS × Nat) e =>
            let rel := e.1.drop (templateDir ++ ["rules"]).length
            let target := deployRuleTarget targetDir rel
            let fs1 := st.1.addDir target.dropLast
            if ! fs1.isFile target || force then (copy2 fs1 e.1 target st.2, st.2 + 1)
            else (fs1, st.2))
          (fs0, ino)
      else (fs0, ino)
    let st2 :=
      if st1.1.pathExists (templateDir ++ ["notes"]) then
        (rglobDir st1.1 (templateDir ++ ["notes"]) ".md").foldl
          (fun (st : FS × Nat) e =>
            let rel := e.1.drop (templateDir ++ ["notes"]).length
            let target := deployNoteTarget targetDir rel
            let fs1 := st.1.addDir target.dropLast
            if ! fs1.isFile target || force then (copy2 fs1 e.1 target st.2, st.2 + 1)
            else (fs1, st.2))
          st1
      else st1
    (true, st2.1)

/-- Python `content.split("---", 2)` unpacked into three parts: `none` when
there are fewer than three parts (the unpacking then raises
`ValueError`). -/
def pySplitDashes2 (cs : List Char) : Option (List Char × List Char × List Char) :=
  match findSub "---".data cs with
  | none => none
  | some i =>
    let before := cs.take i
    let rest := cs.drop (i + 3)
    match findSub "---".data rest with
    | none => none
    | some j => some (before, rest.take j, rest.drop (j + 3))

/-- Python `for field in required: if field not in fm: error` over the rule
schema, with Python `in` semantics: `ok true` when some field is missing,
an error when a membership test raises. -/
def anyFieldMissing (required : List String) (fm : Yaml) : Except PyErr Bool :=
  match required with
  | [] => .ok false
  | f :: rest =>
    match yamlContains f fm with
    | .error e => .error e
    | .ok b => if ! b then .ok true else anyFieldMissing rest fm

/-- The per-rule-file check of `validate_command` (lines 322-348): a rule
file is in error when it is blank, has no `---`, has fewer than three
`---`-separated parts (unpacking raises), its block fails to parse, a
membership test raises, or a required field is missing. -/
def ruleFileHasError (content : String) : Bool :=
  if trimChars content.data = [] then true
  else if ! containsSub "---".data content.data then true
  else
    match pySplitDashes2 content.data with
    | none => true
    | some (_, y, _) =>
      match safeLoadChars y with
      | .error _ => true
      | .ok fm =>
        match anyFieldMissing ["description", "globs", "alwaysApply"] fm with
        | .error _ => true
        | .ok b => b

/-- The per-note-file check of `validate_command` (lines 360-369): a note
file is in error exactly when it is blank. -/
def noteFileHasError (content : String) : Bool :=
  trimChars content.data = []

/-- The rule files examined by `validate_command` (line 317):
`rules_dir.glob("*.md") + rules_dir.glob("*.mdc")`. -/
def ruleFilesOf (fs : FS) (projectPath : FPath) : List (FPath × FileData) :=
  globDir fs (projectPath ++ ["rules"]) ".md"
    ++ globDir fs (projectPath ++ ["rules"]) ".mdc"

/-- The note files examined by `validate_command` (line 355):
`notes_dir.glob("*.md")`. -/
def noteFilesOf (fs : FS) (projectPath : FPath) : List (FPath × FileData) :=
  globDir fs (projectPath ++ ["notes"]) ".md"

/-- Model of `crules/commands.py: validate_command` (lines 293-371): a
missing `rules/` directory or an empty rule-file list returns `False` at
once (the notes checks never run); otherwise `has_errors` is accumulated
over the rule files, then over the notes part (a missing `notes/`
directory or an empty note-file list sets it), and the returned value is
`not has_errors`. -/
def validate_command (fs : FS) (projectPath : FPath) : Bool :=
  if ! fs.pathExists (projectPath ++ ["rules"]) then false
  else
    let ruleFiles := ruleFilesOf fs projectPath
    if ruleFiles = [] then false
    else
      let hasErrors := ruleFiles.foldl
        (fun acc e => acc || ruleFileHasError e.2.content) false
      let hasErrors2 :=
        if ! fs.pathExists (projectPath ++ ["notes"]) then true
        else
          let noteFiles := noteFilesOf fs projectPath
          if noteFiles = [] then true
          else noteFiles.foldl
            (fun acc e => acc || noteFileHasError e.2.content) hasErrors
      ! hasErrors2

end CrulesCmds

/-! ## Derived definitions used in theorem statements -/

/-- Whether the `description` length check evaluates without raising (it
raises only for a present `description` whose value has no `len`). -/
def descCheckComputes (fm : Yaml) : Bool :=
  match CrulesCmds.descCheck fm with
  | .ok _ => true
  | .error _ => false

/-- The notes half of `validate_command`'s error accumulation (lines
350-369), as a predicate of its own: a missing `notes/` directory, an empty
note-file list, or a blank note file. -/
def notesPartHasError (fs : FS) (projectPath : FPath) : Bool :=
  if ! fs.pathExists (projectPath ++ ["notes"]) then true
  else if CrulesCmds.noteFilesOf fs projectPath = [] then true
  else (CrulesCmds.noteFilesOf fs projectPath).any
    (fun e => CrulesCmds.noteFileHasError e.2.content)

/-! ## Helper lemmas -/

theorem foldl_or_eq_any {α : Type} (f : α → Bool) (l : List α) (b : Bool) :
    l.foldl (fun acc x => acc || f x) b = (b || l.any f) := by
  induction l generalizing b with
  | nil => simp
  | cons x xs ih => simp [List.foldl_cons, List.any_cons, ih, Bool.or_assoc]

theorem find?_isNone_eq_not_any {α : Type} (p : α → Bool) (l : List α) :
    (l.find? p).isNone = ! l.any p := by
  induction l with
  | nil => simp
  | cons x xs ih =>
    by_cases h : p x = true <;> simp [List.find?_cons, h, ih]

/-! ## Claim C1 -/

/-- C1 (code bug, failing input): source `s.md` and target `t.mdc` are
distinct files (inodes 1 and 2) with identical one-byte contents. The
shadowed byte-comparing `is_same_file` would report them equal, but the
inode-comparing definition in force reports them different, so
`resolve_conflict(source, target, force=False)` prompts the user instead of
skipping: declining returns `False` (counted as a failure) and the target
survives only by luck of the answer; accepting raises `ConflictError`.
The claim's skip-identical outcome never occurs. -/
theorem resolve_conflict_identical_content_prompts :
    (InnerUtils.is_same_file_v1
        { dirs := [], files := [(["s.md"], { content := "x", size := 1, ino := 1 }),
                                (["t.mdc"], { content := "x", size := 1, ino := 2 })] }
        ["s.md"] ["t.mdc"] = .ok true)
    ∧ (InnerUtils.is_same_file
        { dirs := [], files := [(["s.md"], { content := "x", size := 1, ino := 1 }),
                                (["t.mdc"], { content := "x", size := 1, ino := 2 })] }
        ["s.md"] ["t.mdc"] = false)
    ∧ (InnerUtils.resolve_conflict
        { dirs := [], files := [(["s.md"], { content := "x", size := 1, ino := 1 }),
                                (["t.mdc"], { content := "x", size := 1, ino := 2 })] }
        ["s.md"] ["t.mdc"] false false 7).prompted = true
    ∧ (InnerUtils.resolve_conflict
        { dirs := [], files := [(["s.md"], { content := "x", size := 1, ino := 1 }),
                                (["t.mdc"], { content := "x", size := 1, ino := 2 })] }
        ["s.md"] ["t.mdc"] false false 7).outcome = .ok false
    ∧ (InnerUtils.resolve_conflict
        { dirs := [], files := [(["s.md"], { content := "x", size := 1, ino := 1 }),
                                (["t.mdc"], { content := "x", size := 1, ino := 2 })] }
        ["s.md"] ["t.mdc"] false true 7).outcome = .error .conflictError := by
  decide

/-! ## Claim C2 -/

/-- C2 (code bug, failing input): target `t.mdc` exists with content
different from source `s.md` and `force=True`. The timestamp expression
`datetime.datetime.now()` raises `AttributeError` under the module's
`from datetime import datetime`, so `resolve_conflict` raises
`ConflictError`: no backup is ever created, the target is never
overwritten, and the claimed backup-then-overwrite can never happen. -/
theorem resolve_conflict_force_never_creates_backup :
    (InnerUtils.resolve_conflict
        { dirs := [], files := [(["s.md"], { content := "a", size := 1, ino := 1 }),
                                (["t.mdc"], { content := "b", size := 1, ino := 2 })] }
        ["s.md"] ["t.mdc"] true false 7)
      = { outcome := .error .conflictError,
          fs := { dirs := [], files := [(["s.md"], { content := "a", size := 1, ino := 1 }),
                                        (["t.mdc"], { content := "b", size := 1, ino := 2 })] },
          prompted := false,
          backupsMade := [] }
    ∧ InnerUtils.datetimeTimestamp = .error .attributeError := by
  decide

/-! ## Claim C3 -/

/-- C3 (code bug, failing input): the template contains `rules/big.md` of
size 2000000 bytes (above the 1 MiB limit) and an empty `notes/` directory.
The rules block records the failure — its local `success` flag ends up
`False` — but `init_command` returns `True` regardless, so the per-file
failure is not reflected in the command's returned success indicator. -/
theorem init_command_ignores_per_file_failures :
    (InnerCmds.init_command
        { dirs := [["template"], ["template", "rules"], ["template", "notes"]],
          files := [(["template", "rules", "big.md"],
                     { content := "x", size := 2000000, ino := 1 })] }
        false false 10)
      = .ok (true,
          { dirs := [["template"], ["template", "rules"], ["template", "notes"]],
            files := [(["template", "rules", "big.md"],
                       { content := "x", size := 2000000, ino := 1 })] })
    ∧ (InnerCmds.initRulesBlock
        { dirs := [["template"], ["template", "rules"], ["template", "notes"]],
          files := [(["template", "rules", "big.md"],
                     { content := "x", size := 2000000, ino := 1 })] }
        ["template"] false false 10)
      = .ok (false,
          { dirs := [["template"], ["template", "rules"], ["template", "notes"]],
            files := [(["template", "rules", "big.md"],
                       { content := "x", size := 2000000, ino := 1 })] }, 10)
    ∧ (InnerUtils.validate_file_size
        { dirs := [["template"], ["template", "rules"], ["template", "notes"]],
          files := [(["template", "rules", "big.md"],
                     { content := "x", size := 2000000, ino := 1 })] }
        ["template", "rules", "big.md"] (1024 * 1024)) = .ok false := by
  decide

theorem missingViaMembership_ymap (required : List String)
    (kvs : List (String × YVal)) :
    missingViaMembership required (.ymap kvs)
      = .ok (required.filter (fun f => ! kvs.any (fun kv => kv.1 = f))) := by
  induction required with
  | nil => rfl
  | cons f rest ih =>
    simp only [missingViaMembership, yamlContains, ih, List.filter_cons]
    by_cases h : kvs.any (fun kv => decide (kv.1 = f)) = true <;> simp [h]

theorem specMissing_ymap (required : List String) (kvs : List (String × YVal)) :
    specMissingRequiredFields (.ymap kvs) required
      = required.filter (fun f => ! kvs.any (fun kv => kv.1 = f)) := by
  unfold specMissingRequiredFields Yaml.lookupKey
  refine List.filter_congr ?_
  intro f _
  simp [find?_isNone_eq_not_any]

theorem read_yaml_front_matter_some_startsWith {content : String} {v : Yaml}
    (h : CrulesUtils.read_yaml_front_matter content = some v) :
    startsWithStr "---\n" content = true := by
  by_cases hs : startsWithStr "---\n" content = true
  · exact hs
  · rw [Bool.not_eq_true] at hs
    unfold CrulesUtils.read_yaml_front_matter at h
    simp [hs] at h

/-! ## Claim C4 -/

/-- C4 (amended): `validate_file_content` never raises (it is a total
function); whenever the parsed front matter is a truthy mapping it returns
exactly the required names not present as keys; whenever there is no
parsable front matter (missing markers, empty block, YAML error — the
reader returns `None`) it returns every required field, fail-closed; and a
rule file carrying `description`, `globs` and `alwaysApply` yields no
missing fields. (The amendment the counterexample forces: when the block
parses to a truthy non-mapping, the code decides presence with Python `in`
— substring membership on strings, element membership on sequences —
rather than key membership, so a required name can be spuriously treated
as present.) -/
theorem validate_file_content_exact_missing_fields (content : String)
    (required : List String) :
    (∀ kvs, CrulesUtils.read_yaml_front_matter content = some (.ymap kvs) →
        (Yaml.ymap kvs).pyTruthy = true →
        CrulesUtils.validate_file_content content required
          = specMissingRequiredFields (.ymap kvs) required) ∧
    (CrulesUtils.read_yaml_front_matter content = none →
        CrulesUtils.validate_file_content content required = required) ∧
    CrulesUtils.validate_file_content
        "---\ndescription: x\nglobs: [y]\nalwaysApply: false\n---\nbody"
        ["description", "globs", "alwaysApply"] = [] := by
  refine ⟨?_, ?_, by decide⟩
  · intro kvs h ht
    have hs := read_yaml_front_matter_some_startsWith h
    unfold CrulesUtils.validate_file_content
    rw [specMissing_ymap]
    by_cases hr : required = []
    · simp [hs, h, ht, hr]
    · simp [hs, h, ht, hr, missingViaMembership_ymap]
  · intro h
    by_cases hs : startsWithStr "---\n" content = true
    · unfold CrulesUtils.validate_file_content
      simp [hs, h]
    · rw [Bool.not_eq_true] at hs
      unfold CrulesUtils.validate_file_content
      simp [hs]

/-- C4 counterexample: the block between the markers is the bare word
`description`, which parses to the plain string `"description"` — a value
with no keys at all — yet the validator reports nothing missing, because
Python `in` on a string is a substring test; the spec's key-based
computation reports `description` missing. -/
theorem validate_file_content_substring_counterexample :
    CrulesUtils.read_yaml_front_matter "---\ndescription\n---\nb"
      = some (.yatom (.astr "description"))
    ∧ CrulesUtils.validate_file_content "---\ndescription\n---\nb" ["description"] = []
    ∧ specMissingRequiredFields (.yatom (.astr "description")) ["description"]
      = ["description"] := by
  decide

/-- Witness for C4: the amended theorem applied at a concrete file whose
front matter is the mapping with the single key `description`, asked for
the required field `globs`. -/
theorem validate_file_content_exact_missing_fields_witness :
    CrulesUtils.validate_file_content "---\ndescription: x\n---\nbody" ["globs"]
      = specMissingRequiredFields (.ymap [("description", .vatom (.astr "x"))])
          ["globs"] :=
  (validate_file_content_exact_missing_fields "---\ndescription: x\n---\nbody"
    ["globs"]).1 [("description", .vatom (.astr "x"))] (by decide) (by decide)

theorem any_of_find?_some {α : Type} {p : α → Bool} {l : List α} {a : α}
    (h : l.find? p = some a) : l.any p = true := by
  have h1 := find?_isNone_eq_not_any p l
  rw [h] at h1
  cases ha : l.any p with
  | false => rw [ha] at h1; simp at h1
  | true => rfl

theorem lookupKey_ymap_some {kvs : List (String × YVal)} {k : String} {v : YVal}
    (h : (Yaml.ymap kvs).lookupKey k = some v) :
    ∃ kv, kvs.find? (fun kv => kv.1 = k) = some kv ∧ kv.2 = v := by
  simp only [Yaml.lookupKey] at h
  cases hf : kvs.find? (fun kv => decide (kv.1 = k)) with
  | none => rw [hf] at h; simp at h
  | some kv =>
    rw [hf] at h
    simp at h
    exact ⟨kv, rfl, h⟩

theorem any_eq_false_of_lookup_none {kvs : List (String × YVal)} {k : String}
    (h : (Yaml.ymap kvs).lookupKey k = none) :
    kvs.any (fun kv => kv.1 = k) = false := by
  simp only [Yaml.lookupKey] at h
  have h1 : (kvs.find? (fun kv => decide (kv.1 = k))).isNone = true := by
    cases hf : kvs.find? (fun kv => decide (kv.1 = k)) with
    | none => rfl
    | some kv => rw [hf] at h; simp at h
  rw [find?_isNone_eq_not_any] at h1
  simpa using h1

theorem ymap_truthy_of_lookup_some {kvs : List (String × YVal)} {k : String}
    {v : YVal} (h : (Yaml.ymap kvs).lookupKey k = some v) :
    (Yaml.ymap kvs).pyTruthy = true := by
  cases kvs with
  | nil => simp [Yaml.lookupKey, List.find?] at h
  | cons a l => simp [Yaml.pyTruthy]

theorem yamlGetItem_ymap_some {kvs : List (String × YVal)} {k : String}
    {v : YVal} (h : (Yaml.ymap kvs).lookupKey k = some v) :
    yamlGetItem (.ymap kvs) k = .ok v.toYaml := by
  obtain ⟨kv, hf, hv⟩ := lookupKey_ymap_some h
  unfold yamlGetItem
  simp [hf, hv]

theorem descCheck_absent {kvs : List (String × YVal)}
    (h : (Yaml.ymap kvs).lookupKey "description" = none) :
    CrulesCmds.descCheck (.ymap kvs) = .ok [] := by
  unfold CrulesCmds.descCheck
  simp [yamlContains, any_eq_false_of_lookup_none h]

theorem descCheck_present {kvs : List (String × YVal)} {v : YVal}
    (h : (Yaml.ymap kvs).lookupKey "description" = some v) :
    CrulesCmds.descCheck (.ymap kvs)
      = match pyLen v.toYaml with
        | .error e => .error e
        | .ok n => .ok (if 100 < n then [.descriptionTooLong] else []) := by
  obtain ⟨kv, hf, _⟩ := lookupKey_ymap_some h
  unfold CrulesCmds.descCheck
  simp [yamlContains, any_of_find?_some hf, yamlGetItem_ymap_some h]

theorem globsCheck_absent {kvs : List (String × YVal)}
    (h : (Yaml.ymap kvs).lookupKey "globs" = none) :
    CrulesCmds.globsCheck (.ymap kvs) = .ok [] := by
  unfold CrulesCmds.globsCheck
  simp [yamlContains, any_eq_false_of_lookup_none h]

theorem globsCheck_present {kvs : List (String × YVal)} {v : YVal}
    (h : (Yaml.ymap kvs).lookupKey "globs" = some v) :
    CrulesCmds.globsCheck (.ymap kvs)
      = (if ! v.toYaml.isList then .ok [.globsNotAList]
         else .ok (if ! v.toYaml.pyTruthy then [.globsEmptyList] else [])) := by
  obtain ⟨kv, hf, _⟩ := lookupKey_ymap_some h
  unfold CrulesCmds.globsCheck
  simp [yamlContains, any_of_find?_some hf, yamlGetItem_ymap_some h]

theorem globsCheck_ymap_shape (kvs : List (String × YVal)) :
    ∃ e3, CrulesCmds.globsCheck (.ymap kvs) = .ok e3
      ∧ (e3 = [] ∨ e3 = [.globsNotAList] ∨ e3 = [.globsEmptyList]) := by
  cases h : (Yaml.ymap kvs).lookupKey "globs" with
  | none => exact ⟨[], globsCheck_absent h, Or.inl rfl⟩
  | some v =>
    rw [globsCheck_present h]
    by_cases hl : v.toYaml.isList = true
    · by_cases ht : v.toYaml.pyTruthy = true
      · exact ⟨[], by simp [hl, ht], Or.inl rfl⟩
      · refine ⟨[.globsEmptyList], ?_, Or.inr (Or.inr rfl)⟩
        rw [Bool.not_eq_true] at ht
        simp [hl, ht]
    · rw [Bool.not_eq_true] at hl
      exact ⟨[.globsNotAList], by simp [hl], Or.inr (Or.inl rfl)⟩

theorem descCheck_ymap_shape {kvs : List (String × YVal)} {e2 : List CrulesCmds.VErr}
    (h : CrulesCmds.descCheck (.ymap kvs) = .ok e2) :
    e2 = [] ∨ e2 = [.descriptionTooLong] := by
  cases hk : (Yaml.ymap kvs).lookupKey "description" with
  | none => rw [descCheck_absent hk] at h; injection h with h; exact Or.inl h.symm
  | some v =>
    rw [descCheck_present hk] at h
    cases hl : pyLen v.toYaml with
    | error e => rw [hl] at h; simp at h
    | ok n =>
      rw [hl] at h
      simp only at h
      injection h with h
      by_cases hn : 100 < n
      · rw [if_pos hn] at h; exact Or.inr h.symm
      · rw [if_neg hn] at h; exact Or.inl h.symm

theorem mem_fileNameErrs {fname : String} {v : CrulesCmds.VErr}
    (h : v ∈ CrulesCmds.fileNameErrs fname) :
    v = .nameHasSpace ∨ v = .nameHasSpecialChar := by
  unfold CrulesCmds.fileNameErrs at h
  rw [List.mem_append] at h
  rcases h with h | h
  · split at h <;> simp_all
  · split at h <;> simp_all

theorem validate_file_content_mdc_eq {fname content : String}
    {required : Option (List String)} {kvs : List (String × YVal)}
    (hsuf : pySuffix fname = ".mdc")
    (hread : CrulesUtils.read_yaml_front_matter content = some (.ymap kvs))
    (ht : (Yaml.ymap kvs).pyTruthy = true) :
    CrulesCmds.validate_file_content fname content required
      = CrulesCmds.fileNameErrs fname
        ++ CrulesCmds.mdcChecks (.ymap kvs)
            (required.getD ["description", "globs", "alwaysApply"]) := by
  unfold CrulesCmds.validate_file_content
  simp [hsuf, hread, ht]

theorem validate_file_content_mdc_eq_falsy {fname content : String}
    {required : Option (List String)} {fm : Yaml}
    (hsuf : pySuffix fname = ".mdc")
    (hread : CrulesUtils.read_yaml_front_matter content = some fm)
    (ht : fm.pyTruthy = false) :
    CrulesCmds.validate_file_content fname content required
      = CrulesCmds.fileNameErrs fname ++ [.noFrontMatter] := by
  unfold CrulesCmds.validate_file_content
  simp [hsuf, hread, ht]

theorem mem_mdcChecks_ymap {kvs : List (String × YVal)} {req : List String}
    {v : CrulesCmds.VErr} (h : v ∈ CrulesCmds.mdcChecks (.ymap kvs) req) :
    (∃ miss, v = .missingRequiredFields miss)
    ∨ v = .genericException
    ∨ (∃ e2, CrulesCmds.descCheck (.ymap kvs) = .ok e2 ∧ v ∈ e2)
    ∨ (∃ e3, CrulesCmds.globsCheck (.ymap kvs) = .ok e3 ∧ v ∈ e3) := by
  simp only [CrulesCmds.mdcChecks, missingViaMembership_ymap] at h
  cases hdc : CrulesCmds.descCheck (.ymap kvs) with
  | error e =>
    rw [hdc] at h
    simp only [List.mem_append] at h
    rcases h with h | h
    · split at h
      · simp at h; exact Or.inl ⟨_, h⟩
      · simp at h
    · simp at h; exact Or.inr (Or.inl h)
  | ok e2 =>
    rw [hdc] at h
    cases hgc : CrulesCmds.globsCheck (.ymap kvs) with
    | error e =>
      rw [hgc] at h
      simp only [List.mem_append] at h
      rcases h with (h | h) | h
      · split at h
        · simp at h; exact Or.inl ⟨_, h⟩
        · simp at h
      · exact Or.inr (Or.inr (Or.inl ⟨e2, rfl, h⟩))
      · simp at h; exact Or.inr (Or.inl h)
    | ok e3 =>
      rw [hgc] at h
      simp only [List.mem_append] at h
      rcases h with (h | h) | h
      · split at h
        · simp at h; exact Or.inl ⟨_, h⟩
        · simp at h
      · exact Or.inr (Or.inr (Or.inl ⟨e2, rfl, h⟩))
      · exact Or.inr (Or.inr (Or.inr ⟨e3, rfl, h⟩))

/-! ## Claim C5 -/

/-- C5 (confirmed): for a rule (`.mdc`) file whose front matter parses to a
mapping, `validate_file_content` enforces the per-field constraints: a
present `globs` value that is not a list, or the empty list, each add their
error (whenever the `description` length check itself evaluates, which it
always does unless `description` holds an unsized scalar); a present string
`description` longer than 100 characters adds its error; and an absent
field never produces its constraint errors. -/
theorem validate_file_content_field_constraints (fname content : String)
    (required : Option (List String)) (kvs : List (String × YVal))
    (hsuf : pySuffix fname = ".mdc")
    (hread : CrulesUtils.read_yaml_front_matter content = some (.ymap kvs)) :
    (∀ v, (Yaml.ymap kvs).lookupKey "globs" = some v → v.toYaml.isList = false →
        descCheckComputes (.ymap kvs) = true →
        CrulesCmds.VErr.globsNotAList
          ∈ CrulesCmds.validate_file_content fname content required) ∧
    ((Yaml.ymap kvs).lookupKey "globs" = some (.vseq []) →
        descCheckComputes (.ymap kvs) = true →
        CrulesCmds.VErr.globsEmptyList
          ∈ CrulesCmds.validate_file_content fname content required) ∧
    ((Yaml.ymap kvs).lookupKey "globs" = none →
        CrulesCmds.VErr.globsNotAList
          ∉ CrulesCmds.validate_file_content fname content required
        ∧ CrulesCmds.VErr.globsEmptyList
          ∉ CrulesCmds.validate_file_content fname content required) ∧
    (∀ s, (Yaml.ymap kvs).lookupKey "description" = some (.vatom (.astr s)) →
        100 < s.length →
        CrulesCmds.VErr.descriptionTooLong
          ∈ CrulesCmds.validate_file_content fname content required) ∧
    ((Yaml.ymap kvs).lookupKey "description" = none →
        CrulesCmds.VErr.descriptionTooLong
          ∉ CrulesCmds.validate_file_content fname content required) := by
  refine ⟨?_, ?_, ?_, ?_, ?_⟩
  · intro v hv hnl hd
    have ht := ymap_truthy_of_lookup_some hv
    rw [validate_file_content_mdc_eq hsuf hread ht]
    obtain ⟨e2, hd2⟩ : ∃ e2, CrulesCmds.descCheck (.ymap kvs) = .ok e2 := by
      unfold descCheckComputes at hd
      cases hdc : CrulesCmds.descCheck (.ymap kvs) with
      | ok e2 => exact ⟨e2, rfl⟩
      | error e => rw [hdc] at hd; simp at hd
    have hg : CrulesCmds.globsCheck (.ymap kvs) = .ok [.globsNotAList] := by
      rw [globsCheck_present hv]; simp [hnl]
    simp [CrulesCmds.mdcChecks, missingViaMembership_ymap, hd2, hg,
      List.mem_append]
  · intro hv hd
    have ht := ymap_truthy_of_lookup_some hv
    rw [validate_file_content_mdc_eq hsuf hread ht]
    obtain ⟨e2, hd2⟩ : ∃ e2, CrulesCmds.descCheck (.ymap kvs) = .ok e2 := by
      unfold descCheckComputes at hd
      cases hdc : CrulesCmds.descCheck (.ymap kvs) with
      | ok e2 => exact ⟨e2, rfl⟩
      | error e => rw [hdc] at hd; simp at hd
    have hg : CrulesCmds.globsCheck (.ymap kvs) = .ok [.globsEmptyList] := by
      rw [globsCheck_present hv]
      simp [YVal.toYaml, Yaml.isList, Yaml.pyTruthy]
    simp [CrulesCmds.mdcChecks, missingViaMembership_ymap, hd2, hg,
      List.mem_append]
  · intro hg0
    have hgc := globsCheck_absent hg0
    by_cases ht : (Yaml.ymap kvs).pyTruthy = true
    · rw [validate_file_content_mdc_eq hsuf hread ht]
      constructor <;> intro hmem <;>
        rw [List.mem_append] at hmem <;>
        rcases hmem with hmem | hmem
      · rcases mem_fileNameErrs hmem with h | h <;> simp at h
      · rcases mem_mdcChecks_ymap hmem with ⟨miss, h⟩ | h | ⟨e2, he2, h⟩ | ⟨e3, he3, h⟩
        · simp at h
        · simp at h
        · rcases descCheck_ymap_shape he2 with h2 | h2 <;> rw [h2] at h <;> simp at h
        · rw [hgc] at he3; injection he3 with he3; rw [← he3] at h; simp at h
      · rcases mem_fileNameErrs hmem with h | h <;> simp at h
      · rcases mem_mdcChecks_ymap hmem with ⟨miss, h⟩ | h | ⟨e2, he2, h⟩ | ⟨e3, he3, h⟩
        · simp at h
        · simp at h
        · rcases descCheck_ymap_shape he2 with h2 | h2 <;> rw [h2] at h <;> simp at h
        · rw [hgc] at he3; injection he3 with he3; rw [← he3] at h; simp at h
    · rw [Bool.not_eq_true] at ht
      rw [validate_file_content_mdc_eq_falsy hsuf hread ht]
      constructor <;> intro hmem <;> rw [List.mem_append] at hmem <;>
        rcases hmem with hmem | hmem
      · rcases mem_fileNameErrs hmem with h | h <;> simp at h
      · simp at hmem
      · rcases mem_fileNameErrs hmem with h | h <;> simp at h
      · simp at hmem
  · intro s hv hl
    have ht := ymap_truthy_of_lookup_some hv
    rw [validate_file_content_mdc_eq hsuf hread ht]
    have hd2 : CrulesCmds.descCheck (.ymap kvs) = .ok [.descriptionTooLong] := by
      rw [descCheck_present hv]
      simp [YVal.toYaml, pyLen, hl]
    obtain ⟨e3, hg, _⟩ := globsCheck_ymap_shape kvs
    simp [CrulesCmds.mdcChecks, missingViaMembership_ymap, hd2, hg,
      List.mem_append]
  · intro hd0
    have hdc := descCheck_absent hd0
    by_cases ht : (Yaml.ymap kvs).pyTruthy = true
    · rw [validate_file_content_mdc_eq hsuf hread ht]
      intro hmem
      rw [List.mem_append] at hmem
      rcases hmem with hmem | hmem
      · rcases mem_fileNameErrs hmem with h | h <;> simp at h
      · rcases mem_mdcChecks_ymap hmem with ⟨miss, h⟩ | h | ⟨e2, he2, h⟩ | ⟨e3, he3, h⟩
        · simp at h
        · simp at h
        · rw [hdc] at he2; injection he2 with he2; rw [← he2] at h; simp at h
        · obtain ⟨e3x, hg3, hsh⟩ := globsCheck_ymap_shape kvs
          rw [hg3] at he3; injection he3 with he3; rw [← he3] at h
          rcases hsh with h3 | h3 | h3 <;> rw [h3] at h <;> simp at h
    · rw [Bool.not_eq_true] at ht
      rw [validate_file_content_mdc_eq_falsy hsuf hread ht]
      intro hmem
      rw [List.mem_append] at hmem
      rcases hmem with hmem | hmem
      · rcases mem_fileNameErrs hmem with h | h <;> simp at h
      · simp at hmem

/-- Witness for C5: a concrete `.mdc` file whose front matter has a string
`globs` (not a list), at which the theorem yields the `globs`-not-a-list
error in the validator's output. -/
theorem validate_file_content_field_constraints_witness :
    CrulesCmds.VErr.globsNotAList
      ∈ CrulesCmds.validate_file_content "a.mdc"
          "---\ndescription: d\nglobs: g\n---\nb" none :=
  (validate_file_content_field_constraints "a.mdc"
      "---\ndescription: d\nglobs: g\n---\nb" none
      [("description", .vatom (.astr "d")), ("globs", .vatom (.astr "g"))]
      (by decide) (by decide)).1
    (.vatom (.astr "g")) (by decide) (by decide) (by decide)

/-! ## Claim C6 -/

/-- C6 counterexample: `init_command` places the note file `sub/b.md` at
`.notes/sub/b.md`, not at `notes/sub/b.md` as claimed. -/
theorem init_note_target_is_dot_notes :
    InnerCmds.initNoteTarget ["sub"] "b.md" = [".notes", "sub", "b.md"]
    ∧ InnerCmds.initNoteTarget ["sub"] "b.md" ≠ ["notes", "sub", "b.md"] := by
  decide

/-- C6 (amended): for a rule file `rules/<sub>/<name>` with `name` ending
in `.md`, both `deploy_command` and `init_command` compute the rule target
`.cursor/rules/<sub>/<stem>.mdc` (below the deployment root for
`deploy_command`); `deploy_command` computes the note target
`notes/<sub>/<name>` with the suffix unchanged, but `init_command` places
notes under `.notes/<sub>/<name>` instead of `notes/<sub>/<name>`. Both
preserve the subdirectory structure. -/
theorem deployment_target_paths (targetDir sub : FPath) (name stem : String)
    (hsplit : pySplitext name = (stem, ".md"))
    (hsub : ∀ c ∈ sub, c ≠ ".") :
    name = stem ++ ".md"
    ∧ CrulesCmds.deployRuleTarget targetDir (sub ++ [name])
        = targetDir ++ [".cursor", "rules"] ++ sub ++ [stem ++ ".mdc"]
    ∧ CrulesCmds.deployNoteTarget targetDir (sub ++ [name])
        = targetDir ++ ["notes"] ++ sub ++ [name]
    ∧ InnerCmds.initRuleTarget sub name
        = [".cursor", "rules"] ++ sub ++ [stem ++ ".mdc"]
    ∧ InnerCmds.initNoteTarget sub name
        = [".notes"] ++ sub ++ [name] := by
  have hsubf : sub.filter (fun c => c != ".") = sub :=
    List.filter_eq_self.mpr (fun c hc => by rw [bne_iff_ne]; exact hsub c hc)
  have hmdcne : ((stem ++ ".mdc") != ".") = true := by
    rw [bne_iff_ne]
    intro hcontra
    have hlen := congrArg String.length hcontra
    have h4 : (".mdc" : String).length = 4 := by decide
    have h1 : ("." : String).length = 1 := by decide
    rw [String.length_append, h4, h1] at hlen
    omega
  have hna : name = stem ++ ".md" := by
    unfold pySplitext at hsplit
    cases hdot : lastDotIdx name.data with
    | none =>
      rw [hdot] at hsplit
      injection hsplit with h1 h2
      exact absurd h2 (by decide)
    | some i =>
      rw [hdot] at hsplit
      simp only [] at hsplit
      by_cases hany : (name.data.take i).any (fun c => c ≠ '.') = true
      · rw [if_pos hany] at hsplit
        injection hsplit with h1 h2
        have hd : String.mk (name.data.take i) ++ String.mk (name.data.drop i)
            = name := by
          show String.mk (name.data.take i ++ name.data.drop i) = name
          rw [List.take_append_drop]
        rw [h1, h2] at hd
        exact hd.symm
      · rw [if_neg hany] at hsplit
        injection hsplit with h1 h2
        exact absurd h2 (by decide)
  have hnamene : (name != ".") = true := by
    rw [bne_iff_ne]
    intro hcontra
    have hlen := congrArg String.length (hna.symm.trans hcontra)
    have h3 : (".md" : String).length = 3 := by decide
    have h1 : ("." : String).length = 1 := by decide
    rw [String.length_append, h3, h1] at hlen
    omega
  refine ⟨hna, ?_, ?_, ?_, ?_⟩
  · simp [CrulesCmds.deployRuleTarget, lastName, pyWithSuffix, hsplit,
      List.dropLast_concat, List.getLastD_concat, List.append_assoc]
  · simp [CrulesCmds.deployNoteTarget, List.append_assoc]
  · simp [InnerCmds.initRuleTarget, pathJoin, hsplit, List.filter_append,
      hsubf, hmdcne]
  · simp [InnerCmds.initNoteTarget, pathJoin, List.filter_append, hsubf,
      hnamene]

/-- Witness for C6: the theorem applied at the concrete rule/note file
`sub/a.md` deployed into the current directory. -/
theorem deployment_target_paths_witness :
    CrulesCmds.deployRuleTarget [] (["sub"] ++ ["a.md"])
      = [] ++ [".cursor", "rules"] ++ ["sub"] ++ ["a" ++ ".mdc"] :=
  (deployment_target_paths [] ["sub"] "a.md" "a" (by decide)
    (by intro c hc; rw [List.mem_singleton] at hc; subst hc; decide)).2.1

/-! ## Claim C7 -/

/-- C7 counterexample: the input opens with a `---` marker line, has a
closing marker, and the block between them is whitespace only, yet the
parser returns `None` — exactly the result it returns for an input with no
front-matter markers at all — rather than an empty mapping. -/
theorem empty_block_yields_none :
    CrulesUtils.read_yaml_front_matter "---\n  \n---\nbody" = none
    ∧ CrulesUtils.read_yaml_front_matter "body with no marker" = none := by
  decide

/-- C7 (amended): for every input that begins with a `---` marker line and
contains a closing marker, if the block between the markers is zero bytes
or whitespace only, the parser returns `None` — the same result as for
input with no front matter — not an empty mapping; callers cannot
distinguish the two cases. -/
theorem empty_block_front_matter (content : String) (e : Nat)
    (h1 : startsWithStr "---\n" content = true)
    (h2 : findSub "\n---\n".data content.data = some e)
    (h3 : trimChars (sliceChars content.data 4 e) = []) :
    CrulesUtils.read_yaml_front_matter content = none := by
  unfold CrulesUtils.read_yaml_front_matter
  simp [h1, h2, h3]

/-- Witness for C7: the amended theorem applied at the concrete whitespace
block input. -/
theorem empty_block_front_matter_witness :
    CrulesUtils.read_yaml_front_matter "---\n  \n---\nbody" = none :=
  empty_block_front_matter "---\n  \n---\nbody" 6 (by decide) (by decide)
    (by decide)

/-! ## Claim C8 -/

/-- C8 counterexample: the block `- a` parses successfully to a list (not a
mapping), and the top-level package's parser returns that list as the front
matter instead of reporting a not-a-mapping parse failure. -/
theorem non_mapping_returned_counterexample :
    CrulesUtils.read_yaml_front_matter "---\n- a\n---\nb"
      = some (.yseq [.astr "a"])
    ∧ (Yaml.yseq [.astr "a"]).isMap = false := by
  decide

/-- C8 (amended): the inner package's parser does report a parsed
non-mapping block as a `NotAMapping` validation failure, but the top-level
package's parser has no mapping check and returns the parsed non-mapping
value unchanged. -/
theorem non_mapping_front_matter (c1 : String) (g : List Char) (v1 : Yaml)
    (c2 : String) (e : Nat) (v2 : Yaml)
    (h1 : innerExtract c1 = some g)
    (h2 : safeLoadChars g = .ok v1)
    (h3 : v1.isMap = false)
    (h4 : startsWithStr "---\n" c2 = true)
    (h5 : findSub "\n---\n".data c2.data = some e)
    (h6 : trimChars (sliceChars c2.data 4 e) ≠ [])
    (h7 : safeLoadChars (trimChars (sliceChars c2.data 4 e)) = .ok v2) :
    InnerUtils.read_yaml_front_matter c1 = .error .notAMapping
    ∧ CrulesUtils.read_yaml_front_matter c2 = some v2 := by
  constructor
  · unfold InnerUtils.read_yaml_front_matter
    simp [h1, h2, h3]
  · unfold CrulesUtils.read_yaml_front_matter
    simp [h4, h5, h6, h7]

/-- Witness for C8: the amended theorem applied at the concrete list-block
input for both parsers. -/
theorem non_mapping_front_matter_witness :
    InnerUtils.read_yaml_front_matter "---\n- a\n---\nb" = .error .notAMapping
    ∧ CrulesUtils.read_yaml_front_matter "---\n- a\n---\nb"
        = some (.yseq [.astr "a"]) :=
  non_mapping_front_matter "---\n- a\n---\nb" "- a".data (.yseq [.astr "a"])
    "---\n- a\n---\nb" 7 (.yseq [.astr "a"])
    (by decide) (by decide) (by decide) (by decide) (by decide) (by decide)
    (by decide)

/-! ## Claim C9 -/

/-- C9 (confirmed): for every nonexistent root, every pattern and every
recursion setting, both run-time `list_files` definitions (the top-level
package's and the inner package's second, shadowing definition) return the
empty list without raising. (The inner package's first `list_files`, which
would raise `FileOperationError`, is shadowed by the second definition and
is dead code.) -/
theorem list_files_nonexistent_root (fs : FS) (directory : FPath)
    (pattern : Option String) (recursive : Bool)
    (h : fs.pathExists directory = false) :
    CrulesUtils.list_files fs directory pattern recursive = []
    ∧ InnerUtils.list_files fs directory pattern = [] := by
  have hd : fs.isDir directory = false := by
    simp [FS.pathExists] at h
    exact h.1
  constructor
  · unfold CrulesUtils.list_files
    simp [hd]
  · unfold InnerUtils.list_files
    simp [h]

/-- Witness for C9: the theorem applied at the empty file system, a missing
root, the pattern `*.md` and recursive listing. -/
theorem list_files_nonexistent_root_witness :
    CrulesUtils.list_files { dirs := [], files := [] } ["missing"]
        (some ".md") true = []
    ∧ InnerUtils.list_files { dirs := [], files := [] } ["missing"]
        (some ".md") = [] :=
  list_files_nonexistent_root { dirs := [], files := [] } ["missing"]
    (some ".md") true (by decide)

/-! ## Claim C10 -/

/-- C10 (confirmed): `validate_command` treats the two subtrees
asymmetrically — a missing `rules/` directory, or an empty rule-file list,
returns `False` at once (regardless of the notes subtree, over which the
statement is universally quantified); whereas when rule files exist the
result is the conjunction of the rule checks and the notes checks: the
rule-file checks run to completion and contribute, and a missing `notes/`
directory is recorded as a failure that forces the returned value to
`False` without suppressing them. -/
theorem validate_command_rules_notes_asymmetry (fs : FS) (p : FPath) :
    (fs.pathExists (p ++ ["rules"]) = false →
        CrulesCmds.validate_command fs p = false) ∧
    (CrulesCmds.ruleFilesOf fs p = [] →
        CrulesCmds.validate_command fs p = false) ∧
    (CrulesCmds.ruleFilesOf fs p ≠ [] →
      fs.pathExists (p ++ ["rules"]) = true →
        CrulesCmds.validate_command fs p
          = ! ((CrulesCmds.ruleFilesOf fs p).any
                (fun e => CrulesCmds.ruleFileHasError e.2.content)
              || notesPartHasError fs p)
        ∧ (fs.pathExists (p ++ ["notes"]) = false →
            CrulesCmds.validate_command fs p = false)) := by
  refine ⟨?_, ?_, ?_⟩
  · intro h
    unfold CrulesCmds.validate_command
    simp [h]
  · intro h
    unfold CrulesCmds.validate_command
    by_cases hr : fs.pathExists (p ++ ["rules"]) = true
    · simp [hr, h]
    · rw [Bool.not_eq_true] at hr
      simp [hr]
  · intro hne hr
    have hmain : CrulesCmds.validate_command fs p
        = ! ((CrulesCmds.ruleFilesOf fs p).any
              (fun e => CrulesCmds.ruleFileHasError e.2.content)
            || notesPartHasError fs p) := by
      unfold CrulesCmds.validate_command notesPartHasError
      simp only [hr, hne, foldl_or_eq_any, Bool.false_or, Bool.not_true,
        if_neg, if_false]
      by_cases hn : fs.pathExists (p ++ ["notes"]) = true
      · by_cases hnf : CrulesCmds.noteFilesOf fs p = []
        · simp [hn, hnf, hne]
        · simp [hn, hnf, hne, foldl_or_eq_any]
      · rw [Bool.not_eq_true] at hn
        simp [hn, hne]
    refine ⟨hmain, fun hnx => ?_⟩
    rw [hmain]
    simp [notesPartHasError, hnx]

/-- Witness for C10: a project with a `rules/` directory holding one valid
rule file but no `notes/` directory; the theorem's asymmetry clause forces
the command's result to `False`. -/
theorem validate_command_asymmetry_witness :
    CrulesCmds.validate_command
      { dirs := [["p"], ["p", "rules"]],
        files := [(["p", "rules", "r.md"],
          { content := "---\ndescription: d\nglobs: [y]\nalwaysApply: false\n---\nbody",
            size := 10, ino := 1 })] } ["p"] = false :=
  ((validate_command_rules_notes_asymmetry
      { dirs := [["p"], ["p", "rules"]],
        files := [(["p", "rules", "r.md"],
          { content := "---\ndescription: d\nglobs: [y]\nalwaysApply: false\n---\nbody",
            size := 10, ino := 1 })] } ["p"]).2.2
    (by decide) (by decide)).2 (by decide)
